import Mathlib

/-!
Shallow embedding of the repository/data-model layer of the news-aggregator
(`app/database/repository.py`), together with proofs of the specified
properties of its operations.

Modelling conventions:

* Each SQLAlchemy table is a Lean `List` of records, in insertion order;
  `session.query(T).filter_by(k=v).first()` is `List.find?`,
  `session.add` + `commit` appends, and an attribute assignment on the
  object returned by `.first()` followed by `commit` updates the first
  matching row in place (`updateFirst`).
* Timestamps (`published_at`, `created_at`) are integers.  The time unit is
  taken to be one hour, so `datetime.now() - timedelta(hours=h)` is
  `now - h`.
* Python string truthiness (`a or b`) is modelled by `pyOrS` / `pyOrOS`;
  `Optional[int]` limits and their truthiness (`if limit:`) by `applyLimit`,
  under which `limit=0` is falsy exactly as in Python.
* Each repository method that mutates the store returns its Python return
  value paired with the post-state.
-/

/-- The sentinel stored as a transcript when a video was checked and no
transcript is available (`"__UNAVAILABLE__"` in the source). -/
def UNAVAILABLE : String := "__UNAVAILABLE__"

/-- Row of the `youtube_videos` table. -/
structure YouTubeVideo where
  video_id : String
  title : String
  url : String
  channel_id : String
  published_at : Int
  description : String
  transcript : Option String
deriving DecidableEq, Repr

/-- Row of the `openai_articles` table. -/
structure OpenAIArticle where
  guid : String
  title : String
  url : String
  published_at : Int
  description : String
  category : Option String
deriving DecidableEq, Repr

/-- Row of the `anthropic_articles` table. -/
structure AnthropicArticle where
  guid : String
  title : String
  url : String
  published_at : Int
  description : String
  category : Option String
  markdown : Option String
deriving DecidableEq, Repr

/-- Row of the `digests` table. -/
structure Digest where
  id : String
  article_type : String
  article_id : String
  url : String
  title : String
  summary : String
  created_at : Int
deriving DecidableEq, Repr

/-- The whole store: the three source tables and the digest ledger. -/
structure RepoState where
  youtube_videos : List YouTubeVideo
  openai_articles : List OpenAIArticle
  anthropic_articles : List AnthropicArticle
  digests : List Digest
deriving DecidableEq, Repr

/-- The dict shape consumed by `bulk_create_youtube_videos` (`.get` defaults
already applied). -/
structure VideoInput where
  video_id : String
  title : String
  url : String
  channel_id : String
  published_at : Int
  description : String
  transcript : Option String
deriving DecidableEq, Repr

/-- The dict shape consumed by the two bulk article creators. -/
structure ArticleInput where
  guid : String
  title : String
  url : String
  published_at : Int
  description : String
  category : Option String
deriving DecidableEq, Repr

/-- The unified dict returned by `get_articles_without_digest`. -/
structure UnifiedItem where
  type : String
  id : String
  title : String
  url : String
  content : String
  published_at : Int
deriving DecidableEq, Repr

/-- Python `a or b` for strings: `b` when `a` is empty (falsy). -/
def pyOrS (a b : String) : String := if a = "" then b else a

/-- Python `a or b` where `a` is `Optional[str]`: `b` when `a` is `None` or
empty. -/
def pyOrOS (a : Option String) (b : String) : String :=
  match a with
  | none => b
  | some s => pyOrS s b

/-- Python `if limit: xs = xs[:limit]` (equally `query.limit(limit)`):
applied only when `limit` is truthy, i.e. neither `None` nor `0`. -/
def applyLimit (limit : Option Nat) (xs : List α) : List α :=
  match limit with
  | none => xs
  | some n => if n = 0 then xs else xs.take n

/-- Update the first element satisfying `p` in place, as the
`first()`-then-assign-then-`commit` pattern does on a table. -/
def updateFirst (p : α → Bool) (f : α → α) : List α → List α
  | [] => []
  | x :: xs => if p x then f x :: xs else x :: updateFirst p f xs

/-- `Repository.create_youtube_video`: check-then-insert keyed on
`video_id`; returns the created row, or `none` when the key exists. -/
def create_youtube_video (s : RepoState) (video_id title url channel_id : String)
    (published_at : Int) (description : String) (transcript : Option String) :
    Option YouTubeVideo × RepoState :=
  match s.youtube_videos.find? (fun v => v.video_id == video_id) with
  | some _ => (none, s)
  | none =>
    let video : YouTubeVideo :=
      ⟨video_id, title, url, channel_id, published_at, description, transcript⟩
    (some video, { s with youtube_videos := s.youtube_videos ++ [video] })

/-- `Repository.create_openai_article`: check-then-insert keyed on `guid`. -/
def create_openai_article (s : RepoState) (guid title url : String)
    (published_at : Int) (description : String) (category : Option String) :
    Option OpenAIArticle × RepoState :=
  match s.openai_articles.find? (fun a => a.guid == guid) with
  | some _ => (none, s)
  | none =>
    let article : OpenAIArticle :=
      ⟨guid, title, url, published_at, description, category⟩
    (some article, { s with openai_articles := s.openai_articles ++ [article] })

/-- `Repository.create_anthropic_article`: check-then-insert keyed on `guid`;
newly created rows have no `markdown` yet. -/
def create_anthropic_article (s : RepoState) (guid title url : String)
    (published_at : Int) (description : String) (category : Option String) :
    Option AnthropicArticle × RepoState :=
  match s.anthropic_articles.find? (fun a => a.guid == guid) with
  | some _ => (none, s)
  | none =>
    let article : AnthropicArticle :=
      ⟨guid, title, url, published_at, description, category, none⟩
    (some article, { s with anthropic_articles := s.anthropic_articles ++ [article] })

/-- `Repository.bulk_create_youtube_videos`: every input is checked against
the session state as it was before the batch (the new objects are only added
to the session after the loop), the survivors are appended in one commit and
their number returned. -/
def bulk_create_youtube_videos (s : RepoState) (videos : List VideoInput) :
    Nat × RepoState :=
  let new_videos :=
    (videos.filter (fun v =>
      (s.youtube_videos.find? (fun w => w.video_id == v.video_id)).isNone)).map
      (fun v => (⟨v.video_id, v.title, v.url, v.channel_id, v.published_at,
                  v.description, v.transcript⟩ : YouTubeVideo))
  (new_videos.length, { s with youtube_videos := s.youtube_videos ++ new_videos })

/-- `Repository.bulk_create_openai_articles`: same pattern keyed on `guid`. -/
def bulk_create_openai_articles (s : RepoState) (articles : List ArticleInput) :
    Nat × RepoState :=
  let new_articles :=
    (articles.filter (fun a =>
      (s.openai_articles.find? (fun b => b.guid == a.guid)).isNone)).map
      (fun a => (⟨a.guid, a.title, a.url, a.published_at, a.description,
                  a.category⟩ : OpenAIArticle))
  (new_articles.length, { s with openai_articles := s.openai_articles ++ new_articles })

/-- `Repository.bulk_create_anthropic_articles`: same pattern keyed on `guid`. -/
def bulk_create_anthropic_articles (s : RepoState) (articles : List ArticleInput) :
    Nat × RepoState :=
  let new_articles :=
    (articles.filter (fun a =>
      (s.anthropic_articles.find? (fun b => b.guid == a.guid)).isNone)).map
      (fun a => (⟨a.guid, a.title, a.url, a.published_at, a.description,
                  a.category, none⟩ : AnthropicArticle))
  (new_articles.length,
   { s with anthropic_articles := s.anthropic_articles ++ new_articles })

/-- `Repository.get_anthropic_articles_without_markdown`:
`WHERE markdown IS NULL`, limited only when `limit` is truthy. -/
def get_anthropic_articles_without_markdown (s : RepoState)
    (limit : Option Nat) : List AnthropicArticle :=
  applyLimit limit (s.anthropic_articles.filter (fun a => a.markdown.isNone))

/-- `Repository.update_anthropic_article_markdown`: find the row by `guid`;
when present assign `markdown` (unconditionally) and return `true`, else
return `false`. -/
def update_anthropic_article_markdown (s : RepoState) (guid markdown : String) :
    Bool × RepoState :=
  match s.anthropic_articles.find? (fun a => a.guid == guid) with
  | some _ =>
    let updated := updateFirst (fun a => a.guid == guid)
      (fun a => { a with markdown := some markdown }) s.anthropic_articles
    (true, { s with anthropic_articles := updated })
  | none => (false, s)

/-- `Repository.get_youtube_videos_without_transcript`:
`WHERE transcript IS NULL`, limited only when `limit` is truthy. -/
def get_youtube_videos_without_transcript (s : RepoState)
    (limit : Option Nat) : List YouTubeVideo :=
  applyLimit limit (s.youtube_videos.filter (fun v => v.transcript.isNone))

/-- `Repository.update_youtube_video_transcript`: find the row by `video_id`;
when present assign `transcript` (unconditionally) and return `true`, else
return `false`. -/
def update_youtube_video_transcript (s : RepoState) (video_id transcript : String) :
    Bool × RepoState :=
  match s.youtube_videos.find? (fun v => v.video_id == video_id) with
  | some _ =>
    let updated := updateFirst (fun v => v.video_id == video_id)
      (fun v => { v with transcript := some transcript }) s.youtube_videos
    (true, { s with youtube_videos := updated })
  | none => (false, s)

/-- The deterministic digest key `f"{article_type}:{article_id}"`. -/
def digestKey (article_type article_id : String) : String :=
  article_type ++ ":" ++ article_id

/-- The keys already present in the digest ledger (`seen_ids`). -/
def digestKeys (s : RepoState) : List String :=
  s.digests.map (fun d => digestKey d.article_type d.article_id)

/-- `Repository.get_articles_without_digest`: one ledger scan builds
`seen_ids`; each source table contributes its ready rows whose key is not
seen, unified into the common dict; `youtube, openai, anthropic` order;
truncated only when `limit` is truthy. -/
def get_articles_without_digest (s : RepoState) (limit : Option Nat) :
    List UnifiedItem :=
  let seen := digestKeys s
  let yt :=
    (s.youtube_videos.filter (fun v =>
        v.transcript.isSome && v.transcript != some UNAVAILABLE
          && !(seen.contains (digestKey "youtube" v.video_id)))).map
      (fun v => ({ type := "youtube", id := v.video_id, title := v.title,
                   url := v.url,
                   content := pyOrOS v.transcript (pyOrS v.description ""),
                   published_at := v.published_at } : UnifiedItem))
  let oa :=
    (s.openai_articles.filter (fun a =>
        !(seen.contains (digestKey "openai" a.guid)))).map
      (fun a => ({ type := "openai", id := a.guid, title := a.title,
                   url := a.url, content := pyOrS a.description "",
                   published_at := a.published_at } : UnifiedItem))
  let an :=
    (s.anthropic_articles.filter (fun a =>
        a.markdown.isSome
          && !(seen.contains (digestKey "anthropic" a.guid)))).map
      (fun a => ({ type := "anthropic", id := a.guid, title := a.title,
                   url := a.url,
                   content := pyOrOS a.markdown (pyOrS a.description ""),
                   published_at := a.published_at } : UnifiedItem))
  applyLimit limit (yt ++ oa ++ an)

/-- `Repository.create_digest`: compute the key, check-then-insert; when the
key is fresh, `created_at` is the supplied publication time, else the call
time `now`. -/
def create_digest (s : RepoState) (article_type article_id url title summary : String)
    (published_at : Option Int) (now : Int) : Option Digest × RepoState :=
  let digest_id := digestKey article_type article_id
  match s.digests.find? (fun d => d.id == digest_id) with
  | some _ => (none, s)
  | none =>
    let created_at := match published_at with | some p => p | none => now
    let d : Digest :=
      ⟨digest_id, article_type, article_id, url, title, summary, created_at⟩
    (some d, { s with digests := s.digests ++ [d] })

/-- Insert a digest into a list kept in non-increasing `created_at` order. -/
def insertDesc (d : Digest) : List Digest → List Digest
  | [] => [d]
  | x :: xs => if d.created_at ≤ x.created_at then x :: insertDesc d xs
               else d :: x :: xs

/-- Sort digests by `created_at` descending (`ORDER BY created_at DESC`). -/
def sortDesc : List Digest → List Digest
  | [] => []
  | x :: xs => insertDesc x (sortDesc xs)

/-- `Repository.get_recent_digests`: filter `created_at >= now - hours` and
order by `created_at` descending.  The method performs no validation of
`hours`. -/
def get_recent_digests (s : RepoState) (hours : Int) (now : Int) : List Digest :=
  let cutoff_time := now - hours
  sortDesc (s.digests.filter (fun d => cutoff_time ≤ d.created_at))

/-- The state-changing repository operations, for reasoning about arbitrary
operation sequences. -/
inductive RepoOp where
  | createVideo (video_id title url channel_id : String) (published_at : Int)
      (description : String) (transcript : Option String)
  | createOpenai (guid title url : String) (published_at : Int)
      (description : String) (category : Option String)
  | createAnthropic (guid title url : String) (published_at : Int)
      (description : String) (category : Option String)
  | bulkVideos (videos : List VideoInput)
  | bulkOpenai (articles : List ArticleInput)
  | bulkAnthropic (articles : List ArticleInput)
  | updateTr (video_id transcript : String)
  | updateMd (guid markdown : String)
  | createDig (article_type article_id url title summary : String)
      (published_at : Option Int) (now : Int)
deriving Repr

/-- Effect of one repository operation on the store. -/
def step (s : RepoState) : RepoOp → RepoState
  | .createVideo vid t u c p d tr => (create_youtube_video s vid t u c p d tr).2
  | .createOpenai g t u p d c => (create_openai_article s g t u p d c).2
  | .createAnthropic g t u p d c => (create_anthropic_article s g t u p d c).2
  | .bulkVideos vs => (bulk_create_youtube_videos s vs).2
  | .bulkOpenai as => (bulk_create_openai_articles s as).2
  | .bulkAnthropic as => (bulk_create_anthropic_articles s as).2
  | .updateTr vid tr => (update_youtube_video_transcript s vid tr).2
  | .updateMd g m => (update_anthropic_article_markdown s g m).2
  | .createDig t i u ti su p now => (create_digest s t i u ti su p now).2

/-- Run a sequence of repository operations. -/
def runOps (s : RepoState) (ops : List RepoOp) : RepoState :=
  ops.foldl step s

/-! ### Helper lemmas -/

lemma applyLimit_subset (limit : Option Nat) (xs : List α) :
    applyLimit limit xs ⊆ xs := by
  cases limit with
  | none => exact fun a h => h
  | some n =>
    by_cases h0 : n = 0
    · simp [applyLimit, h0]
    · simpa [applyLimit, h0] using List.take_subset n xs

lemma mem_updateFirst {p : α → Bool} {f : α → α} :
    ∀ {l : List α} {x : α}, x ∈ updateFirst p f l → x ∈ l ∨ ∃ y ∈ l, x = f y := by
  intro l
  induction l with
  | nil => intro x hx; simp [updateFirst] at hx
  | cons a as ih =>
    intro x hx
    by_cases hp : p a
    · simp [updateFirst, hp] at hx
      rcases hx with hx | hx
      · exact Or.inr ⟨a, by simp, hx⟩
      · exact Or.inl (by simp [hx])
    · simp [updateFirst, hp] at hx
      rcases hx with hx | hx
      · exact Or.inl (by simp [hx])
      · rcases ih hx with h | ⟨y, hy, hxy⟩
        · exact Or.inl (by simp [h])
        · exact Or.inr ⟨y, by simp [hy], hxy⟩

lemma updateFirst_map_eq {p : α → Bool} {f : α → α} (g : α → β)
    (hg : ∀ x, g (f x) = g x) :
    ∀ l : List α, (updateFirst p f l).map g = l.map g := by
  intro l
  induction l with
  | nil => rfl
  | cons a as ih =>
    by_cases hp : p a
    · simp [updateFirst, hp, hg]
    · simp [updateFirst, hp, ih]

/-! ### C10: a zero limit is falsy, hence behaves as no limit -/

/-- C10.  For every store state, `limit = 0` passed to
`get_youtube_videos_without_transcript`, `get_anthropic_articles_without_markdown`
or `get_articles_without_digest` yields the same (full, unbounded) result as
passing no limit at all, because the Python `if limit:` guard treats `0` as
falsy. -/
theorem limit_zero_means_no_limit (s : RepoState) :
    get_youtube_videos_without_transcript s (some 0) =
      get_youtube_videos_without_transcript s none
    ∧ get_anthropic_articles_without_markdown s (some 0) =
      get_anthropic_articles_without_markdown s none
    ∧ get_articles_without_digest s (some 0) =
      get_articles_without_digest s none :=
  ⟨rfl, rfl, rfl⟩

/-! ### C2: registering the same key twice -/

/-- C2.  For each of the three per-source `create` operations: starting from
a state where the key is not yet stored, a first call returns the created
record, an immediately repeated call with the identical key returns `none`
(AlreadyExists) and leaves the state exactly as after the first call, and
exactly one row with that key is stored. -/
theorem register_twice_idempotent (s : RepoState)
    (vid vt vu vc : String) (vp : Int) (vd : String) (vtr : Option String)
    (og ot ou : String) (op : Int) (od : String) (oc : Option String)
    (ag ath au : String) (ap : Int) (ad : String) (ac : Option String)
    (hv : s.youtube_videos.find? (fun v => v.video_id == vid) = none)
    (ho : s.openai_articles.find? (fun a => a.guid == og) = none)
    (ha : s.anthropic_articles.find? (fun a => a.guid == ag) = none) :
    ((create_youtube_video s vid vt vu vc vp vd vtr).1 =
        some ⟨vid, vt, vu, vc, vp, vd, vtr⟩
      ∧ (create_youtube_video (create_youtube_video s vid vt vu vc vp vd vtr).2
          vid vt vu vc vp vd vtr).1 = none
      ∧ (create_youtube_video (create_youtube_video s vid vt vu vc vp vd vtr).2
          vid vt vu vc vp vd vtr).2 = (create_youtube_video s vid vt vu vc vp vd vtr).2
      ∧ (create_youtube_video s vid vt vu vc vp vd vtr).2.youtube_videos.countP
          (fun v => v.video_id == vid) = 1)
    ∧ ((create_openai_article s og ot ou op od oc).1 = some ⟨og, ot, ou, op, od, oc⟩
      ∧ (create_openai_article (create_openai_article s og ot ou op od oc).2
          og ot ou op od oc).1 = none
      ∧ (create_openai_article (create_openai_article s og ot ou op od oc).2
          og ot ou op od oc).2 = (create_openai_article s og ot ou op od oc).2
      ∧ (create_openai_article s og ot ou op od oc).2.openai_articles.countP
          (fun a => a.guid == og) = 1)
    ∧ ((create_anthropic_article s ag ath au ap ad ac).1 =
        some ⟨ag, ath, au, ap, ad, ac, none⟩
      ∧ (create_anthropic_article (create_anthropic_article s ag ath au ap ad ac).2
          ag ath au ap ad ac).1 = none
      ∧ (create_anthropic_article (create_anthropic_article s ag ath au ap ad ac).2
          ag ath au ap ad ac).2 = (create_anthropic_article s ag ath au ap ad ac).2
      ∧ (create_anthropic_article s ag ath au ap ad ac).2.anthropic_articles.countP
          (fun a => a.guid == ag) = 1) := by
  have hv0 : ∀ v ∈ s.youtube_videos, ¬ (v.video_id == vid) = true :=
    List.find?_eq_none.mp hv
  have ho0 : ∀ a ∈ s.openai_articles, ¬ (a.guid == og) = true :=
    List.find?_eq_none.mp ho
  have ha0 : ∀ a ∈ s.anthropic_articles, ¬ (a.guid == ag) = true :=
    List.find?_eq_none.mp ha
  refine ⟨⟨?_, ?_, ?_, ?_⟩, ⟨?_, ?_, ?_, ?_⟩, ⟨?_, ?_, ?_, ?_⟩⟩
  · simp [create_youtube_video, hv]
  · simp [create_youtube_video, hv, List.find?_append]
  · simp [create_youtube_video, hv, List.find?_append]
  · simp [create_youtube_video, hv, List.countP_append,
      List.countP_eq_zero.mpr hv0, List.countP_cons]
  · simp [create_openai_article, ho]
  · simp [create_openai_article, ho, List.find?_append]
  · simp [create_openai_article, ho, List.find?_append]
  · simp [create_openai_article, ho, List.countP_append,
      List.countP_eq_zero.mpr ho0, List.countP_cons]
  · simp [create_anthropic_article, ha]
  · simp [create_anthropic_article, ha, List.find?_append]
  · simp [create_anthropic_article, ha, List.find?_append]
  · simp [create_anthropic_article, ha, List.countP_append,
      List.countP_eq_zero.mpr ha0, List.countP_cons]

/-- Concrete instantiation of `register_twice_idempotent` on the empty
store. -/
theorem register_twice_idempotent_witness :
    (RepoState.mk [] [] [] []).youtube_videos.find? (fun v => v.video_id == "v1") = none
    ∧ ((create_youtube_video (RepoState.mk [] [] [] []) "v1" "t" "u" "c" 0 "d" none).1 =
        some ⟨"v1", "t", "u", "c", 0, "d", none⟩
      ∧ (create_youtube_video
          (create_youtube_video (RepoState.mk [] [] [] []) "v1" "t" "u" "c" 0 "d" none).2
          "v1" "t" "u" "c" 0 "d" none).1 = none
      ∧ (create_youtube_video
          (create_youtube_video (RepoState.mk [] [] [] []) "v1" "t" "u" "c" 0 "d" none).2
          "v1" "t" "u" "c" 0 "d" none).2 =
        (create_youtube_video (RepoState.mk [] [] [] []) "v1" "t" "u" "c" 0 "d" none).2
      ∧ (create_youtube_video (RepoState.mk [] [] [] []) "v1" "t" "u" "c" 0 "d" none).2.youtube_videos.countP
          (fun v => v.video_id == "v1") = 1) :=
  ⟨rfl,
    ((register_twice_idempotent (RepoState.mk [] [] [] [])
      "v1" "t" "u" "c" 0 "d" none
      "g1" "t" "u" 0 "d" none
      "a1" "t" "u" 0 "d" none
      rfl rfl rfl).1)⟩

/-! ### C3: creating the same digest twice -/

/-- C3.  Starting from a state with no digest under the key, a first
`create_digest` stores one record; a second call with the same
`(article_type, article_id)` — whatever its other arguments — returns `none`
(AlreadyExists) and leaves the whole store state literally unchanged, and
exactly one digest with that key is stored. -/
theorem createDigest_twice_idempotent (s : RepoState)
    (ty aid u1 t1 su1 u2 t2 su2 : String)
    (p1 p2 : Option Int) (now1 now2 : Int)
    (h : s.digests.find? (fun d => d.id == digestKey ty aid) = none) :
    (create_digest s ty aid u1 t1 su1 p1 now1).1.isSome
    ∧ (create_digest (create_digest s ty aid u1 t1 su1 p1 now1).2
        ty aid u2 t2 su2 p2 now2).1 = none
    ∧ (create_digest (create_digest s ty aid u1 t1 su1 p1 now1).2
        ty aid u2 t2 su2 p2 now2).2 = (create_digest s ty aid u1 t1 su1 p1 now1).2
    ∧ (create_digest s ty aid u1 t1 su1 p1 now1).2.digests.countP
        (fun d => d.id == digestKey ty aid) = 1 := by
  have h0 : ∀ d ∈ s.digests, ¬ (d.id == digestKey ty aid) = true :=
    List.find?_eq_none.mp h
  refine ⟨?_, ?_, ?_, ?_⟩
  · simp [create_digest, h]
  · simp [create_digest, h, List.find?_append]
  · simp [create_digest, h, List.find?_append]
  · simp [create_digest, h, List.countP_append,
      List.countP_eq_zero.mpr h0, List.countP_cons]

/-- Concrete instantiation of `createDigest_twice_idempotent` on the empty
store. -/
theorem createDigest_twice_idempotent_witness :
    (RepoState.mk [] [] [] []).digests.find?
        (fun d => d.id == digestKey "youtube" "v1") = none
    ∧ ((create_digest (RepoState.mk [] [] [] []) "youtube" "v1" "u" "t" "s" none 7).1.isSome
      ∧ (create_digest
          (create_digest (RepoState.mk [] [] [] []) "youtube" "v1" "u" "t" "s" none 7).2
          "youtube" "v1" "u2" "t2" "s2" (some 3) 9).1 = none
      ∧ (create_digest
          (create_digest (RepoState.mk [] [] [] []) "youtube" "v1" "u" "t" "s" none 7).2
          "youtube" "v1" "u2" "t2" "s2" (some 3) 9).2 =
        (create_digest (RepoState.mk [] [] [] []) "youtube" "v1" "u" "t" "s" none 7).2
      ∧ (create_digest (RepoState.mk [] [] [] []) "youtube" "v1" "u" "t" "s" none 7).2.digests.countP
          (fun d => d.id == digestKey "youtube" "v1") = 1) :=
  ⟨rfl, createDigest_twice_idempotent (RepoState.mk [] [] [] [])
    "youtube" "v1" "u" "t" "s" "u2" "t2" "s2" none (some 3) 7 9 rfl⟩

/-! ### C5: what attachEnrichment actually does -/

/-- C5 counterexample state: one video whose transcript is already the
string `"a"`. -/
def sC5 : RepoState :=
  ⟨[⟨"v1", "t", "u", "c", 0, "d", some "a"⟩], [], [], []⟩

/-- C5 counterexample.  `update_youtube_video_transcript` mutates a row
whose enrichment is already a string: on a video whose transcript is
`some "a"`, attaching `"b"` succeeds and the stored transcript becomes
`some "b"` — a string → string mutation, so the claim "an item whose
enrichment is already a string … is never mutated" is false. -/
theorem attachEnrichment_string_mutated_cex :
    (update_youtube_video_transcript sC5 "v1" "b").1 = true
    ∧ (update_youtube_video_transcript sC5 "v1" "b").2.youtube_videos.map
        (fun v => v.transcript) = [some "b"]
    ∧ sC5.youtube_videos.map (fun v => v.transcript) = [some "a"]
    ∧ ("a" : String) ≠ "b" :=
  ⟨rfl, rfl, rfl, by decide⟩

/-- C5 (amended).  `update_youtube_video_transcript` and
`update_anthropic_article_markdown` set the enrichment field whenever the
row exists — overwriting any prior value, with no absence check — touch
nothing else, and their boolean result reports whether the row was found
(equivalently, whether anything was updated). -/
theorem attachEnrichment_overwrites (s : RepoState) (vid tr g md : String) :
    ((update_youtube_video_transcript s vid tr).1 =
        (s.youtube_videos.find? (fun v => v.video_id == vid)).isSome
      ∧ (update_youtube_video_transcript s vid tr).2.youtube_videos =
          (if (s.youtube_videos.find? (fun v => v.video_id == vid)).isSome then
            updateFirst (fun v => v.video_id == vid)
              (fun v => { v with transcript := some tr }) s.youtube_videos
          else s.youtube_videos)
      ∧ (update_youtube_video_transcript s vid tr).2.openai_articles = s.openai_articles
      ∧ (update_youtube_video_transcript s vid tr).2.anthropic_articles =
          s.anthropic_articles
      ∧ (update_youtube_video_transcript s vid tr).2.digests = s.digests)
    ∧ ((update_anthropic_article_markdown s g md).1 =
        (s.anthropic_articles.find? (fun a => a.guid == g)).isSome
      ∧ (update_anthropic_article_markdown s g md).2.anthropic_articles =
          (if (s.anthropic_articles.find? (fun a => a.guid == g)).isSome then
            updateFirst (fun a => a.guid == g)
              (fun a => { a with markdown := some md }) s.anthropic_articles
          else s.anthropic_articles)
      ∧ (update_anthropic_article_markdown s g md).2.youtube_videos = s.youtube_videos
      ∧ (update_anthropic_article_markdown s g md).2.openai_articles = s.openai_articles
      ∧ (update_anthropic_article_markdown s g md).2.digests = s.digests) := by
  constructor
  · cases hf : s.youtube_videos.find? (fun v => v.video_id == vid) with
    | none => simp [update_youtube_video_transcript, hf]
    | some v => simp [update_youtube_video_transcript, hf]
  · cases hf : s.anthropic_articles.find? (fun a => a.guid == g) with
    | none => simp [update_anthropic_article_markdown, hf]
    | some a => simp [update_anthropic_article_markdown, hf]

/-! ### C9: empty sourceId keys are accepted, not rejected -/

/-- C9 counterexample.  On the empty store, `create_youtube_video` with an
empty `video_id` does not signal any error: it creates and returns a row
keyed by `""`, and a subsequent transcript update on key `""` succeeds. -/
theorem register_empty_sourceId_cex :
    (create_youtube_video (RepoState.mk [] [] [] []) "" "t" "u" "c" 0 "d" none).1 =
      some ⟨"", "t", "u", "c", 0, "d", none⟩
    ∧ (create_youtube_video (RepoState.mk [] [] [] [])
        "" "t" "u" "c" 0 "d" none).2.youtube_videos =
      [⟨"", "t", "u", "c", 0, "d", none⟩]
    ∧ (update_youtube_video_transcript
        (create_youtube_video (RepoState.mk [] [] [] []) "" "t" "u" "c" 0 "d" none).2
        "" "x").1 = true :=
  ⟨rfl, rfl, rfl⟩

/-- C9 (amended).  `register`/`attachEnrichment` perform no key validation:
with an empty `sourceId`, registration proceeds down the normal create path
(returning the created row and appending it), and a subsequent
`attachEnrichment` on the empty key finds that row and returns `true`. -/
theorem register_empty_sourceId_accepted (s : RepoState)
    (t u c : String) (p : Int) (d : String) (tr : Option String) (tr2 : String)
    (h : s.youtube_videos.find? (fun v => v.video_id == "") = none) :
    (create_youtube_video s "" t u c p d tr).1 = some ⟨"", t, u, c, p, d, tr⟩
    ∧ (create_youtube_video s "" t u c p d tr).2.youtube_videos =
        s.youtube_videos ++ [⟨"", t, u, c, p, d, tr⟩]
    ∧ (update_youtube_video_transcript
        (create_youtube_video s "" t u c p d tr).2 "" tr2).1 = true := by
  refine ⟨?_, ?_, ?_⟩ <;>
    simp [create_youtube_video, h, update_youtube_video_transcript, List.find?_append]

/-- Concrete instantiation of `register_empty_sourceId_accepted` on the
empty store. -/
theorem register_empty_sourceId_accepted_witness :
    (RepoState.mk [] [] [] []).youtube_videos.find? (fun v => v.video_id == "") = none
    ∧ ((create_youtube_video (RepoState.mk [] [] [] []) "" "t" "u" "c" 0 "d" none).1 =
        some ⟨"", "t", "u", "c", 0, "d", none⟩
      ∧ (create_youtube_video (RepoState.mk [] [] [] [])
          "" "t" "u" "c" 0 "d" none).2.youtube_videos =
        (RepoState.mk [] [] [] []).youtube_videos ++ [⟨"", "t", "u", "c", 0, "d", none⟩]
      ∧ (update_youtube_video_transcript
          (create_youtube_video (RepoState.mk [] [] [] []) "" "t" "u" "c" 0 "d" none).2
          "" "x").1 = true) :=
  ⟨rfl, register_empty_sourceId_accepted (RepoState.mk [] [] [] [])
    "t" "u" "c" 0 "d" none "x" rfl⟩

/-! ### Sorting lemmas for the recency index -/

lemma insertDesc_perm (d : Digest) (l : List Digest) :
    (insertDesc d l).Perm (d :: l) := by
  induction l with
  | nil => exact List.Perm.refl _
  | cons x xs ih =>
    by_cases h : d.created_at ≤ x.created_at
    · simp only [insertDesc, if_pos h]
      exact (ih.cons x).trans (List.Perm.swap d x xs)
    · simp only [insertDesc, if_neg h]
      exact List.Perm.refl _

lemma sortDesc_perm (l : List Digest) : (sortDesc l).Perm l := by
  induction l with
  | nil => exact List.Perm.refl _
  | cons x xs ih => exact (insertDesc_perm x (sortDesc xs)).trans (ih.cons x)

lemma pairwise_insertDesc {d : Digest} {l : List Digest}
    (h : l.Pairwise (fun a b => b.created_at ≤ a.created_at)) :
    (insertDesc d l).Pairwise (fun a b => b.created_at ≤ a.created_at) := by
  induction l with
  | nil => simp [insertDesc]
  | cons x xs ih =>
    rcases List.pairwise_cons.mp h with ⟨hx, hxs⟩
    by_cases hd : d.created_at ≤ x.created_at
    · simp only [insertDesc, if_pos hd]
      refine List.pairwise_cons.mpr ⟨?_, ih hxs⟩
      intro y hy
      have hy' : y = d ∨ y ∈ xs := by
        simpa using (insertDesc_perm d xs).mem_iff.mp hy
      rcases hy' with rfl | hyx
      · exact hd
      · exact hx y hyx
    · simp only [insertDesc, if_neg hd]
      push_neg at hd
      refine List.pairwise_cons.mpr ⟨?_, h⟩
      intro y hy
      rcases List.mem_cons.mp hy with rfl | hyx
      · exact le_of_lt hd
      · exact le_trans (hx y hyx) (le_of_lt hd)

lemma pairwise_sortDesc (l : List Digest) :
    (sortDesc l).Pairwise (fun a b => b.created_at ≤ a.created_at) := by
  induction l with
  | nil => simp [sortDesc]
  | cons x xs ih => exact pairwise_insertDesc ih

lemma mem_get_recent_digests (s : RepoState) (hours now : Int) (d : Digest) :
    d ∈ get_recent_digests s hours now ↔ d ∈ s.digests ∧ now - hours ≤ d.created_at := by
  unfold get_recent_digests
  rw [(sortDesc_perm _).mem_iff]
  simp

/-! ### C7: the recency index filters and orders -/

/-- C7.  For every ledger state, window and call time, `get_recent_digests`
returns exactly (a permutation characterizes multiplicity too) the digests
with `created_at ≥ now - hours`, and its output is ordered by `created_at`
in non-increasing order (newest first). -/
theorem recentDigests_filter_and_order (s : RepoState) (hours now : Int) :
    (get_recent_digests s hours now).Perm
      (s.digests.filter (fun d => now - hours ≤ d.created_at))
    ∧ (∀ d ∈ get_recent_digests s hours now,
        d ∈ s.digests ∧ now - hours ≤ d.created_at)
    ∧ (∀ d ∈ s.digests, now - hours ≤ d.created_at →
        d ∈ get_recent_digests s hours now)
    ∧ (get_recent_digests s hours now).Pairwise
        (fun a b => b.created_at ≤ a.created_at) := by
  refine ⟨sortDesc_perm _, ?_, ?_, pairwise_sortDesc _⟩
  · intro d hd
    exact (mem_get_recent_digests s hours now d).mp hd
  · intro d hd hcut
    exact (mem_get_recent_digests s hours now d).mpr ⟨hd, hcut⟩

/-! ### C8: non-positive windows are not rejected -/

/-- C8 counterexample state: a ledger holding one digest created at time 5. -/
def sC8 : RepoState :=
  ⟨[], [], [], [⟨"youtube:v1", "youtube", "v1", "u", "t", "sm", 5⟩]⟩

/-- C8 counterexample.  `get_recent_digests` with the non-positive window
`hours = 0` signals no error: at `now = 5` it returns the normal result
sequence containing the digest created at time 5 (the filter
`created_at ≥ now - 0` is applied as usual). -/
theorem recentDigests_zero_window_returns_cex :
    get_recent_digests sC8 0 5 =
      [⟨"youtube:v1", "youtube", "v1", "u", "t", "sm", 5⟩] := rfl

/-- C8 (amended).  `get_recent_digests` performs no validation of `hours`:
a non-positive window is accepted and the usual filter
`created_at ≥ now - hours` is applied, so only digests timestamped at or
after `now` can be returned. -/
theorem recentDigests_nonpositive_window_accepted (s : RepoState)
    (hours now : Int) (h : hours ≤ 0) :
    (get_recent_digests s hours now).Perm
      (s.digests.filter (fun d => now - hours ≤ d.created_at))
    ∧ ∀ d ∈ get_recent_digests s hours now, now ≤ d.created_at := by
  refine ⟨sortDesc_perm _, ?_⟩
  intro d hd
  have h2 := ((mem_get_recent_digests s hours now d).mp hd).2
  have : now ≤ now - hours := by omega
  omega

/-- Concrete instantiation of `recentDigests_nonpositive_window_accepted`
with window `0` at `now = 5` on `sC8`. -/
theorem recentDigests_nonpositive_window_accepted_witness :
    (0 : Int) ≤ 0
    ∧ ((get_recent_digests sC8 0 5).Perm
        (sC8.digests.filter (fun d => (5 : Int) - 0 ≤ d.created_at))
      ∧ ∀ d ∈ get_recent_digests sC8 0 5, (5 : Int) ≤ d.created_at) :=
  ⟨by decide, recentDigests_nonpositive_window_accepted sC8 0 5 (by decide)⟩

/-! ### C1: what pendingForDigest returns -/

/-- C1 counterexample state: one video whose transcript was attached as the
empty string, with a non-empty short description, and an empty ledger. -/
def sC1 : RepoState :=
  ⟨[⟨"v1", "t", "u", "c", 0, "d", some ""⟩], [], [], []⟩

/-- C1 counterexample.  The claim says a returned video item has `content`
equal to its enrichment value; but for a video whose transcript is the
(present, non-sentinel) empty string, `get_articles_without_digest` returns
it with `content = "d"` — the short description — because the source
computes `transcript or description or ""`. -/
theorem pendingForDigest_video_content_cex :
    (get_articles_without_digest sC1 none).map (fun it => it.content) = ["d"]
    ∧ sC1.youtube_videos.map (fun v => v.transcript) = [some ""]
    ∧ ("d" : String) ≠ "" :=
  ⟨rfl, rfl, by decide⟩

/-- C1 (amended).  Without a limit, `get_articles_without_digest` returns
exactly the ready-and-not-yet-digested items: a video is ready iff its
transcript is present and not the `UNAVAILABLE` sentinel, with content the
transcript falling back to the short description when the transcript string
is empty; every openai article is ready with content its description; an
anthropic article is ready iff its markdown is present, with content the
markdown falling back to the description when empty.  No returned item's
`digestKey` is in the ledger, and every such ready undigested row is
returned. -/
theorem pendingForDigest_exactly_ready_not_digested (s : RepoState) (it : UnifiedItem) :
    it ∈ get_articles_without_digest s none ↔
      ((∃ v ∈ s.youtube_videos,
          v.transcript.isSome ∧ v.transcript ≠ some UNAVAILABLE
          ∧ digestKey "youtube" v.video_id ∉ digestKeys s
          ∧ (⟨"youtube", v.video_id, v.title, v.url,
              pyOrOS v.transcript (pyOrS v.description ""), v.published_at⟩ :
              UnifiedItem) = it)
       ∨ (∃ a ∈ s.openai_articles,
          digestKey "openai" a.guid ∉ digestKeys s
          ∧ (⟨"openai", a.guid, a.title, a.url, pyOrS a.description "",
              a.published_at⟩ : UnifiedItem) = it)
       ∨ (∃ a ∈ s.anthropic_articles,
          a.markdown.isSome
          ∧ digestKey "anthropic" a.guid ∉ digestKeys s
          ∧ (⟨"anthropic", a.guid, a.title, a.url,
              pyOrOS a.markdown (pyOrS a.description ""), a.published_at⟩ :
              UnifiedItem) = it)) := by
  simp only [get_articles_without_digest, applyLimit, List.mem_append, List.mem_filter,
    List.mem_map, Bool.and_eq_true, Bool.not_eq_true', List.elem_eq_mem,
    decide_eq_false_iff_not, bne_iff_ne, ne_eq, and_assoc, or_assoc]

/-! ### C6: batch registration -/

/-- C6 counterexample.  A batch containing the same fresh key twice defeats
the duplicate check (which only consults the pre-batch table): both copies
are counted and stored, leaving two rows for one key. -/
theorem registerBatch_intra_batch_duplicate_cex :
    (bulk_create_youtube_videos (RepoState.mk [] [] [] [])
      [⟨"v1", "t", "u", "c", 0, "d", none⟩, ⟨"v1", "t", "u", "c", 0, "d", none⟩]).1 = 2
    ∧ (bulk_create_youtube_videos (RepoState.mk [] [] [] [])
        [⟨"v1", "t", "u", "c", 0, "d", none⟩,
         ⟨"v1", "t", "u", "c", 0, "d", none⟩]).2.youtube_videos.countP
        (fun v => v.video_id == "v1") = 2 :=
  ⟨rfl, rfl⟩

/-- Core facts about one bulk-create: the appended rows are exactly the
inputs whose key is absent from the pre-batch table, key uniqueness is
preserved when the batch keys are pairwise distinct, and every batch key is
queryable afterwards. -/
lemma bulk_news_spec {α β : Type} (key : α → String) (keyI : β → String) (mk : β → α)
    (hk : ∀ b, key (mk b) = keyI b) (table : List α) (inputs : List β)
    (hd : inputs.Pairwise (fun a b => keyI a ≠ keyI b)) :
    (∀ n ∈ (inputs.filter (fun b =>
        (table.find? (fun a => key a == keyI b)).isNone)).map mk,
      ∀ v ∈ table, key v ≠ key n)
    ∧ (table.Pairwise (fun a b => key a ≠ key b) →
        (table ++ (inputs.filter (fun b =>
            (table.find? (fun a => key a == keyI b)).isNone)).map mk).Pairwise
          (fun a b => key a ≠ key b))
    ∧ (∀ b ∈ inputs, ∃ row ∈ table ++ (inputs.filter (fun c =>
        (table.find? (fun a => key a == keyI c)).isNone)).map mk,
        key row = keyI b) := by
  have hfresh : ∀ n ∈ (inputs.filter (fun b =>
      (table.find? (fun a => key a == keyI b)).isNone)).map mk,
      ∀ v ∈ table, key v ≠ key n := by
    intro n hn v hv
    rcases List.mem_map.mp hn with ⟨b, hb, rfl⟩
    rcases List.mem_filter.mp hb with ⟨hbin, hbnone⟩
    have hnone : table.find? (fun a => key a == keyI b) = none :=
      Option.isNone_iff_eq_none.mp hbnone
    have := List.find?_eq_none.mp hnone v hv
    rw [hk]
    intro hcontra
    exact this (by simp [hcontra])
  refine ⟨hfresh, ?_, ?_⟩
  · intro htable
    rw [List.pairwise_append]
    refine ⟨htable, ?_, ?_⟩
    · rw [List.pairwise_map]
      have := hd.filter (fun b => (table.find? (fun a => key a == keyI b)).isNone)
      exact this.imp (by intro a b h; simp [hk]; exact h)
    · intro v hv n hn
      exact hfresh n hn v hv
  · intro b hb
    by_cases hfind : (table.find? (fun a => key a == keyI b)).isSome
    · rcases List.find?_isSome.mp hfind with ⟨row, hrow, hkey⟩
      exact ⟨row, List.mem_append_left _ hrow, by simpa using hkey⟩
    · refine ⟨mk b, List.mem_append_right _ ?_, hk b⟩
      exact List.mem_map.mpr ⟨b, List.mem_filter.mpr ⟨hb, by simpa using hfind⟩, rfl⟩

/-- C6 (amended).  For batches whose items carry pairwise-distinct keys,
each bulk-create returns exactly the number of newly created rows, appends
those rows after the untouched pre-existing table, skips every item whose
key already exists, preserves at-most-one-row-per-key, and leaves every
batch key queryable afterwards. -/
theorem registerBatch_distinct_keys_spec (s : RepoState)
    (videos : List VideoInput) (oarts aarts : List ArticleInput)
    (hv : videos.Pairwise (fun a b => a.video_id ≠ b.video_id))
    (ho : oarts.Pairwise (fun a b => a.guid ≠ b.guid))
    (ha : aarts.Pairwise (fun a b => a.guid ≠ b.guid)) :
    (∃ news : List YouTubeVideo,
      (bulk_create_youtube_videos s videos).2 =
        { s with youtube_videos := s.youtube_videos ++ news }
      ∧ news.length = (bulk_create_youtube_videos s videos).1
      ∧ (∀ n ∈ news, ∀ v ∈ s.youtube_videos, v.video_id ≠ n.video_id)
      ∧ (s.youtube_videos.Pairwise (fun a b => a.video_id ≠ b.video_id) →
          (bulk_create_youtube_videos s videos).2.youtube_videos.Pairwise
            (fun a b => a.video_id ≠ b.video_id))
      ∧ (∀ v ∈ videos, ∃ row ∈ (bulk_create_youtube_videos s videos).2.youtube_videos,
          row.video_id = v.video_id))
    ∧ (∃ news : List OpenAIArticle,
      (bulk_create_openai_articles s oarts).2 =
        { s with openai_articles := s.openai_articles ++ news }
      ∧ news.length = (bulk_create_openai_articles s oarts).1
      ∧ (∀ n ∈ news, ∀ a ∈ s.openai_articles, a.guid ≠ n.guid)
      ∧ (s.openai_articles.Pairwise (fun a b => a.guid ≠ b.guid) →
          (bulk_create_openai_articles s oarts).2.openai_articles.Pairwise
            (fun a b => a.guid ≠ b.guid))
      ∧ (∀ a ∈ oarts, ∃ row ∈ (bulk_create_openai_articles s oarts).2.openai_articles,
          row.guid = a.guid))
    ∧ (∃ news : List AnthropicArticle,
      (bulk_create_anthropic_articles s aarts).2 =
        { s with anthropic_articles := s.anthropic_articles ++ news }
      ∧ news.length = (bulk_create_anthropic_articles s aarts).1
      ∧ (∀ n ∈ news, ∀ a ∈ s.anthropic_articles, a.guid ≠ n.guid)
      ∧ (s.anthropic_articles.Pairwise (fun a b => a.guid ≠ b.guid) →
          (bulk_create_anthropic_articles s aarts).2.anthropic_articles.Pairwise
            (fun a b => a.guid ≠ b.guid))
      ∧ (∀ a ∈ aarts, ∃ row ∈ (bulk_create_anthropic_articles s aarts).2.anthropic_articles,
          row.guid = a.guid)) := by
  obtain ⟨h1, h2, h3⟩ := bulk_news_spec (fun v : YouTubeVideo => v.video_id)
    (fun v : VideoInput => v.video_id)
    (fun v => (⟨v.video_id, v.title, v.url, v.channel_id, v.published_at,
                v.description, v.transcript⟩ : YouTubeVideo))
    (fun _ => rfl) s.youtube_videos videos hv
  obtain ⟨g1, g2, g3⟩ := bulk_news_spec (fun a : OpenAIArticle => a.guid)
    (fun a : ArticleInput => a.guid)
    (fun a => (⟨a.guid, a.title, a.url, a.published_at, a.description,
                a.category⟩ : OpenAIArticle))
    (fun _ => rfl) s.openai_articles oarts ho
  obtain ⟨k1, k2, k3⟩ := bulk_news_spec (fun a : AnthropicArticle => a.guid)
    (fun a : ArticleInput => a.guid)
    (fun a => (⟨a.guid, a.title, a.url, a.published_at, a.description,
                a.category, none⟩ : AnthropicArticle))
    (fun _ => rfl) s.anthropic_articles aarts ha
  refine ⟨⟨_, rfl, rfl, ?_, ?_, ?_⟩, ⟨_, rfl, rfl, ?_, ?_, ?_⟩, ⟨_, rfl, rfl, ?_, ?_, ?_⟩⟩
  · intro n hn v hvmem; exact h1 n hn v hvmem
  · intro hp; exact h2 hp
  · intro v hvin; exact h3 v hvin
  · intro n hn a hamem; exact g1 n hn a hamem
  · intro hp; exact g2 hp
  · intro a hain; exact g3 a hain
  · intro n hn a hamem; exact k1 n hn a hamem
  · intro hp; exact k2 hp
  · intro a hain; exact k3 a hain

/-- C6 witness state: two videos `a`, `b` already registered. -/
def sC6 : RepoState :=
  ⟨[⟨"a", "t", "u", "c", 0, "d", none⟩, ⟨"b", "t", "u", "c", 0, "d", none⟩],
   [], [], []⟩

/-- C6 witness batch: five items, two of whose keys (`a`, `b`) already
exist. -/
def batchC6 : List VideoInput :=
  [⟨"a", "t", "u", "c", 0, "d", none⟩, ⟨"b", "t", "u", "c", 0, "d", none⟩,
   ⟨"c", "t", "u", "c", 0, "d", none⟩, ⟨"d", "t", "u", "c", 0, "d", none⟩,
   ⟨"e", "t", "u", "c", 0, "d", none⟩]

/-- Concrete instantiation of `registerBatch_distinct_keys_spec`: the
5-item batch with 2 existing keys returns 3 and leaves all 5 keys
queryable. -/
theorem registerBatch_distinct_keys_spec_witness :
    batchC6.Pairwise (fun a b => a.video_id ≠ b.video_id)
    ∧ (bulk_create_youtube_videos sC6 batchC6).1 = 3
    ∧ (∀ v ∈ batchC6, ∃ row ∈ (bulk_create_youtube_videos sC6 batchC6).2.youtube_videos,
        row.video_id = v.video_id) := by
  obtain ⟨⟨news, -, -, -, -, hq⟩, -, -⟩ :=
    registerBatch_distinct_keys_spec sC6 batchC6 [] []
      (by decide) List.Pairwise.nil List.Pairwise.nil
  exact ⟨by decide, rfl, hq⟩
/-! ### C4: the UNAVAILABLE sentinel is permanent -/

/-- A key is sealed when a row with it exists and every row with it has a
non-null transcript: such a key can never again appear in
`get_youtube_videos_without_transcript`. -/
def transcriptSealed (s : RepoState) (id : String) : Prop :=
  (∃ v ∈ s.youtube_videos, v.video_id = id)
  ∧ ∀ v ∈ s.youtube_videos, v.video_id = id → v.transcript.isSome

lemma find?_isSome_of_exists {l : List YouTubeVideo} {id : String}
    (h : ∃ v ∈ l, v.video_id = id) :
    (l.find? (fun v => v.video_id == id)).isSome := by
  rcases h with ⟨v, hv, hid⟩
  exact List.find?_isSome.mpr ⟨v, hv, by simp [hid]⟩

/-- Every repository operation preserves sealedness of a key: once a row
with the key exists, no create/bulk path inserts another row with it, and
transcript updates only ever write `some` values. -/
lemma step_preserves (id : String) (op : RepoOp) (s : RepoState)
    (h : transcriptSealed s id) : transcriptSealed (step s op) id := by
  obtain ⟨hex, hall⟩ := h
  cases op with
  | createVideo vid t u c p d tr =>
    by_cases hvid : vid = id
    · subst hvid
      rcases Option.isSome_iff_exists.mp (find?_isSome_of_exists hex) with ⟨w, hw⟩
      simp only [step, create_youtube_video, hw]
      exact ⟨hex, hall⟩
    · cases hf : s.youtube_videos.find? (fun v => v.video_id == vid) with
      | some w =>
        simp only [step, create_youtube_video, hf]
        exact ⟨hex, hall⟩
      | none =>
        simp only [step, create_youtube_video, hf]
        constructor
        · rcases hex with ⟨v, hv, hvid'⟩
          exact ⟨v, List.mem_append_left _ hv, hvid'⟩
        · intro v hv hid2
          rcases List.mem_append.mp hv with h1 | h1
          · exact hall v h1 hid2
          · simp only [List.mem_singleton] at h1
            subst h1
            simp only at hid2
            exact absurd hid2 hvid
  | createOpenai g t u p d c =>
    cases hf : s.openai_articles.find? (fun a => a.guid == g) with
    | some a => exact ⟨by simpa [step, create_openai_article, hf] using hex,
        by simpa [step, create_openai_article, hf] using hall⟩
    | none => exact ⟨by simpa [step, create_openai_article, hf] using hex,
        by simpa [step, create_openai_article, hf] using hall⟩
  | createAnthropic g t u p d c =>
    cases hf : s.anthropic_articles.find? (fun a => a.guid == g) with
    | some a => exact ⟨by simpa [step, create_anthropic_article, hf] using hex,
        by simpa [step, create_anthropic_article, hf] using hall⟩
    | none => exact ⟨by simpa [step, create_anthropic_article, hf] using hex,
        by simpa [step, create_anthropic_article, hf] using hall⟩
  | bulkVideos vs =>
    simp only [step, bulk_create_youtube_videos]
    constructor
    · rcases hex with ⟨v, hv, hvid⟩
      exact ⟨v, List.mem_append_left _ hv, hvid⟩
    · intro v hv hid2
      rcases List.mem_append.mp hv with h1 | h1
      · exact hall v h1 hid2
      · exfalso
        rcases List.mem_map.mp h1 with ⟨b, hb, rfl⟩
        rcases List.mem_filter.mp hb with ⟨hbin, hnone⟩
        have hnone' : s.youtube_videos.find? (fun w => w.video_id == b.video_id) = none :=
          Option.isNone_iff_eq_none.mp hnone
        rcases hex with ⟨w, hw, hwid⟩
        simp only at hid2
        exact (List.find?_eq_none.mp hnone' w hw) (by simp [hwid, hid2])
  | bulkOpenai as =>
    exact ⟨by simpa [step, bulk_create_openai_articles] using hex,
      by simpa [step, bulk_create_openai_articles] using hall⟩
  | bulkAnthropic as =>
    exact ⟨by simpa [step, bulk_create_anthropic_articles] using hex,
      by simpa [step, bulk_create_anthropic_articles] using hall⟩
  | updateTr vid tr =>
    cases hf : s.youtube_videos.find? (fun v => v.video_id == vid) with
    | none =>
      simp only [step, update_youtube_video_transcript, hf]
      exact ⟨hex, hall⟩
    | some w =>
      simp only [step, update_youtube_video_transcript, hf]
      constructor
      · rcases hex with ⟨v, hv, hvid⟩
        have hmap := updateFirst_map_eq (p := fun v => v.video_id == vid)
          (f := fun v => { v with transcript := some tr })
          (fun x : YouTubeVideo => x.video_id) (fun x => rfl) s.youtube_videos
        have hidmem : id ∈ (updateFirst (fun v => v.video_id == vid)
            (fun v => { v with transcript := some tr })
            s.youtube_videos).map (fun x => x.video_id) := by
          rw [hmap]
          exact List.mem_map.mpr ⟨v, hv, hvid⟩
        rcases List.mem_map.mp hidmem with ⟨v', hv', hv'id⟩
        exact ⟨v', hv', hv'id⟩
      · intro v hv hid2
        rcases mem_updateFirst hv with h1 | ⟨y, hy, rfl⟩
        · exact hall v h1 hid2
        · simp
  | updateMd g m =>
    cases hf : s.anthropic_articles.find? (fun a => a.guid == g) with
    | none =>
      simp only [step, update_anthropic_article_markdown, hf]
      exact ⟨hex, hall⟩
    | some a =>
      simp only [step, update_anthropic_article_markdown, hf]
      exact ⟨hex, hall⟩
  | createDig ty i u ti su p now =>
    cases hf : s.digests.find? (fun d => d.id == digestKey ty i) with
    | some d => exact ⟨by simpa [step, create_digest, hf] using hex,
        by simpa [step, create_digest, hf] using hall⟩
    | none => exact ⟨by simpa [step, create_digest, hf] using hex,
        by simpa [step, create_digest, hf] using hall⟩

lemma runOps_preserves (id : String) (ops : List RepoOp) :
    ∀ s : RepoState, transcriptSealed s id → transcriptSealed (runOps s ops) id := by
  induction ops with
  | nil => intro s h; exact h
  | cons op ops ih =>
    intro s h
    exact ih (step s op) (step_preserves id op s h)

lemma sealed_after_update (l : List YouTubeVideo) (id tr : String)
    (hcount : l.countP (fun v => v.video_id == id) ≤ 1)
    (hfound : (l.find? (fun v => v.video_id == id)).isSome) :
    (∃ v ∈ updateFirst (fun v => v.video_id == id)
        (fun v => { v with transcript := some tr }) l, v.video_id = id)
    ∧ ∀ v ∈ updateFirst (fun v => v.video_id == id)
        (fun v => { v with transcript := some tr }) l,
        v.video_id = id → v.transcript.isSome := by
  induction l with
  | nil => simp at hfound
  | cons x xs ih =>
    by_cases hp : (x.video_id == id) = true
    · simp only [updateFirst, if_pos hp]
      have hid : x.video_id = id := by simpa using hp
      constructor
      · exact ⟨{ x with transcript := some tr }, by simp, hid⟩
      · intro v hv hvid
        rcases List.mem_cons.mp hv with rfl | h1
        · simp
        · exfalso
          have hzero : xs.countP (fun v => v.video_id == id) = 0 := by
            have h1 : (x :: xs).countP (fun v => v.video_id == id) =
                xs.countP (fun v => v.video_id == id) + 1 := by
              simp [List.countP_cons, hp]
            omega
          exact (List.countP_eq_zero.mp hzero v h1) (by simp [hvid])
    · simp only [updateFirst, if_neg hp]
      have hfound' : (xs.find? (fun v => v.video_id == id)).isSome := by
        rw [List.find?_cons] at hfound
        simpa [hp] using hfound
      have hcount' : xs.countP (fun v => v.video_id == id) ≤ 1 := by
        have h1 : (x :: xs).countP (fun v => v.video_id == id) =
            xs.countP (fun v => v.video_id == id) := by
          simp [List.countP_cons, hp]
        omega
      obtain ⟨hex, hall⟩ := ih hcount' hfound'
      constructor
      · rcases hex with ⟨v, hv, hvid⟩
        exact ⟨v, List.mem_cons_of_mem _ hv, hvid⟩
      · intro v hv hvid
        rcases List.mem_cons.mp hv with rfl | h1
        · exact absurd (by simp [hvid] : (v.video_id == id) = true) hp
        · exact hall v h1 hvid

/-- C4.  For any store whose table holds at most one row with the key (the
declared unique-key invariant of the data model), once
`update_youtube_video_transcript id UNAVAILABLE` has succeeded, no
subsequent sequence of repository operations can ever make
`get_youtube_videos_without_transcript` (with any limit) return that id
again. -/
theorem unavailable_sentinel_permanent (s : RepoState) (id : String)
    (ops : List RepoOp) (limit : Option Nat)
    (hu : s.youtube_videos.countP (fun v => v.video_id == id) ≤ 1)
    (hs : (update_youtube_video_transcript s id UNAVAILABLE).1 = true) :
    ∀ v ∈ get_youtube_videos_without_transcript
        (runOps (update_youtube_video_transcript s id UNAVAILABLE).2 ops) limit,
      v.video_id ≠ id := by
  have hfound : (s.youtube_videos.find? (fun v => v.video_id == id)).isSome := by
    by_contra hnone
    rw [Option.not_isSome_iff_eq_none] at hnone
    simp [update_youtube_video_transcript, hnone] at hs
  have hsealed0 : transcriptSealed (update_youtube_video_transcript s id UNAVAILABLE).2 id := by
    rcases Option.isSome_iff_exists.mp hfound with ⟨w, hw⟩
    simp only [update_youtube_video_transcript, hw]
    exact sealed_after_update s.youtube_videos id UNAVAILABLE hu hfound
  have hsealed := runOps_preserves id ops _ hsealed0
  intro v hv hid
  have hmem : v ∈ (runOps (update_youtube_video_transcript s id UNAVAILABLE).2
      ops).youtube_videos.filter (fun v => v.transcript.isNone) :=
    applyLimit_subset limit _ hv
  rcases List.mem_filter.mp hmem with ⟨hin, hnone⟩
  have hsome := hsealed.2 v hin hid
  rw [Option.isNone_iff_eq_none] at hnone
  simp [hnone] at hsome

/-- C4 witness initial state: one pending video `v1`. -/
def sC4 : RepoState := ⟨[⟨"v1", "t", "u", "c", 0, "d", none⟩], [], [], []⟩

/-- C4 witness operation sequence: attempts to re-register `v1` in bulk and
singly, plus an unrelated markdown update. -/
def opsC4 : List RepoOp :=
  [.bulkVideos [⟨"v1", "t2", "u2", "c2", 1, "d2", none⟩],
   .createVideo "v1" "t3" "u3" "c3" 2 "d3" none,
   .updateMd "g" "m"]

/-- Concrete instantiation of `unavailable_sentinel_permanent`. -/
theorem unavailable_sentinel_permanent_witness :
    sC4.youtube_videos.countP (fun v => v.video_id == "v1") ≤ 1
    ∧ (update_youtube_video_transcript sC4 "v1" UNAVAILABLE).1 = true
    ∧ ∀ v ∈ get_youtube_videos_without_transcript
        (runOps (update_youtube_video_transcript sC4 "v1" UNAVAILABLE).2 opsC4) none,
      v.video_id ≠ "v1" :=
  ⟨by decide, rfl,
    unavailable_sentinel_permanent sC4 "v1" opsC4 none (by decide) rfl⟩
